import Mathlib

/-!
# Verification of the jinko interpreter core

A shallow embedding of the interpreter's core data structures and
operations (scope map, type instantiation, field access, include
resolution, token recognition), together with theorems about the
properties claimed of them.

Strings from the Rust side are modelled as Lean `String`s; byte buffers
as `List Nat`; Rust's `HashMap` as an association list (keys are unique
because insertion only happens when the key is absent); `LinkedList` as
a Lean `List` with the front at the head.  A Rust method that mutates
`self` and returns `Result<T, E>` is modelled as a function returning
the pair of an `Except` value and the new state.
-/

/-- Error kinds of the interpreter (src/error.rs, re-exported by lib.rs). -/
inductive ErrKind where
  | Parsing
  | Context
  | Interpreter
  | TypeChecker
deriving DecidableEq, Repr

/-- An interpreter error: a kind together with its message
(`Error::new(kind).with_msg(msg)`). Source locations are not modelled. -/
structure Error where
  kind : ErrKind
  msg : String
deriving DecidableEq, Repr

-- Equality of `Except` results is decidable when both components are.
deriving instance DecidableEq for Except

/-- Modelled from the spec: `TypeId` (its defining module is not among the
sources; only users of it are) is a wrapper over an identifier. -/
structure TypeId where
  id : String
deriving DecidableEq, Repr

/-- Modelled from the spec: the fixed set of primitive type names
{int, float, bool, char, string}. -/
def PRIMITIVE_TYPES : List String := ["int", "float", "bool", "char", "string"]

/-- Modelled from the spec: a `TypeId` is primitive when its name is one of
the five primitive type names. -/
def TypeId.is_primitive (t : TypeId) : Bool := PRIMITIVE_TYPES.contains t.id

/-- A formal parameter or record field declaration
(src/instruction/dec_arg.rs): a name paired with a `TypeId`. -/
structure DecArg where
  name : String
  ty : TypeId
deriving DecidableEq, Repr

/-- Modelled from the spec: a record type declaration (its module is absent
from the sources) has a name and an ordered sequence of `DecArg` fields. -/
structure TypeDec where
  name : String
  fields : List DecArg
deriving DecidableEq, Repr

/-- Modelled from the spec: the runtime representation of a value
(src/instance is absent from the sources): an optional `TypeDec`, a size in
bytes, a contiguous byte buffer, and an optional ordered field map from
identifier to (offset, size). -/
structure ObjectInstance where
  ty : Option TypeDec
  size : Nat
  data : List Nat
  fields : Option (List (String × Nat × Nat))
deriving DecidableEq, Repr

/-- Turn an ordered list of (field name, field size) pairs into the field
map, assigning each field the offset that is the cumulative sum of the
sizes of the preceding fields.  `off` is the running offset. -/
def fieldsWithOffsets (off : Nat) : List (String × Nat) → List (String × Nat × Nat)
  | [] => []
  | (n, s) :: rest => (n, off, s) :: fieldsWithOffsets (off + s) rest

/-- Modelled from the spec: `ObjectInstance::new` receives the ordered
(name, size) pairs gathered during instantiation and stores the field map
with cumulative offsets ("offsets are cumulative sums of preceding field
sizes"). -/
def ObjectInstance.new (ty : Option TypeDec) (size : Nat) (data : List Nat)
    (fields : Option (List (String × Nat))) : ObjectInstance :=
  ⟨ty, size, data, fields.map (fieldsWithOffsets 0)⟩

/-- First binding of a name in an ordered field map. -/
def lookupField : List (String × Nat × Nat) → String → Option (Nat × Nat)
  | [], _ => none
  | (n, o, s) :: rest, name => if n = name then some (o, s) else lookupField rest name

/-- Modelled from the spec: `ObjectInstance::get_field` slices
`data[offset, offset + size]` using the field map and returns a fresh
instance for the field; a missing field, or field access on an instance
without a field map (a primitive), surfaces as an error.  The sub-field's
carried type is not inferred in the current design, so the produced
instance carries no type and no further field map. -/
def ObjectInstance.get_field (inst : ObjectInstance) (name : String) :
    Except Error ObjectInstance :=
  match inst.fields with
  | none => .error ⟨ErrKind.Context,
      "field access on primitive instance without fields: " ++ name⟩
  | some fs =>
    match lookupField fs name with
    | some (off, sz) => .ok ⟨none, sz, (inst.data.drop off).take sz, none⟩
    | none => .error ⟨ErrKind.Context, "no field named " ++ name⟩

/-- Modelled from the spec: a variable (its module is absent from the
sources) is an identifier, a mutability flag and an optional bound
instance; the scope map only consults its name. -/
structure Var where
  name : String
  mutable : Bool
  value : Option ObjectInstance
deriving DecidableEq, Repr

/-- Modelled from the spec: a function declaration (its module is absent
from the sources); only the parts the scope map consults are kept. -/
structure FunctionDec where
  name : String
  args : List DecArg
  ty : Option TypeId
deriving DecidableEq, Repr

/-- A scope (src/context/scope_map.rs): three independent name-keyed maps
for vars, functions and type declarations. -/
structure Scope where
  vars : List (String × Var)
  functions : List (String × FunctionDec)
  types : List (String × TypeDec)
deriving DecidableEq, Repr

/-- First value bound to a key in an association list. -/
def assocFind {α : Type} : List (String × α) → String → Option α
  | [], _ => none
  | (k, v) :: rest, name => if k = name then some v else assocFind rest name

/-- `Scope::new`: a fresh empty scope. -/
def Scope.new : Scope := ⟨[], [], []⟩

/-- `Scope::get_variable`. -/
def Scope.get_variable (sc : Scope) (name : String) : Option Var :=
  assocFind sc.vars name

/-- `Scope::get_function`. -/
def Scope.get_function (sc : Scope) (name : String) : Option FunctionDec :=
  assocFind sc.functions name

/-- `Scope::get_type`. -/
def Scope.get_type (sc : Scope) (name : String) : Option TypeDec :=
  assocFind sc.types name

/-- `Scope::add_variable`: error when the name is already bound in this
scope, otherwise insert. -/
def Scope.add_variable (sc : Scope) (var : Var) : Except Error Scope :=
  match sc.get_variable var.name with
  | some _ => .error ⟨ErrKind.Context, "variable already declared: " ++ var.name⟩
  | none => .ok { sc with vars := (var.name, var) :: sc.vars }

/-- `Scope::add_function`. -/
def Scope.add_function (sc : Scope) (func : FunctionDec) : Except Error Scope :=
  match sc.get_function func.name with
  | some _ => .error ⟨ErrKind.Context, "function already declared: " ++ func.name⟩
  | none => .ok { sc with functions := (func.name, func) :: sc.functions }

/-- `Scope::add_type`. -/
def Scope.add_type (sc : Scope) (type_dec : TypeDec) : Except Error Scope :=
  match sc.get_type type_dec.name with
  | some _ => .error ⟨ErrKind.Context, "type already declared: " ++ type_dec.name⟩
  | none => .ok { sc with types := (type_dec.name, type_dec) :: sc.types }

/-- The scope map (src/context/scope_map.rs): a stack of scopes, innermost
first (`LinkedList` with `push_front` / `pop_front`). -/
structure ScopeMap where
  scopes : List Scope
deriving DecidableEq, Repr

/-- `ScopeMap::new`: no scopes. -/
def ScopeMap.new : ScopeMap := ⟨[]⟩

/-- `ScopeMap::scope_enter`: push a fresh empty scope at the front. -/
def ScopeMap.scope_enter (s : ScopeMap) : ScopeMap := ⟨Scope.new :: s.scopes⟩

/-- `ScopeMap::scope_exit`: pop the innermost scope.  The source unwraps
the pop so that popping from an empty scope map crashes the process; the
crash is modelled as `none`. -/
def ScopeMap.scope_exit (s : ScopeMap) : Option ScopeMap :=
  match s.scopes with
  | [] => none
  | _ :: rest => some ⟨rest⟩

/-- `ScopeMap::get_variable`: first match walking the scopes from the
innermost outward. -/
def ScopeMap.get_variable (s : ScopeMap) (name : String) : Option Var :=
  s.scopes.findSome? (fun sc => sc.get_variable name)

/-- `ScopeMap::get_function`. -/
def ScopeMap.get_function (s : ScopeMap) (name : String) : Option FunctionDec :=
  s.scopes.findSome? (fun sc => sc.get_function name)

/-- `ScopeMap::get_type`. -/
def ScopeMap.get_type (s : ScopeMap) (name : String) : Option TypeDec :=
  s.scopes.findSome? (fun sc => sc.get_type name)

/-- `ScopeMap::add_variable`: delegate to the innermost scope; error when
there is none.  On error the stack is left unchanged. -/
def ScopeMap.add_variable (s : ScopeMap) (var : Var) : Except Error Unit × ScopeMap :=
  match s.scopes with
  | [] => (.error ⟨ErrKind.Context, "Adding variable to empty scopemap"⟩, s)
  | head :: rest =>
    match head.add_variable var with
    | .ok head2 => (.ok (), ⟨head2 :: rest⟩)
    | .error e => (.error e, s)

/-- `ScopeMap::add_function`. -/
def ScopeMap.add_function (s : ScopeMap) (func : FunctionDec) :
    Except Error Unit × ScopeMap :=
  match s.scopes with
  | [] => (.error ⟨ErrKind.Context, "Adding function to empty scopemap"⟩, s)
  | head :: rest =>
    match head.add_function func with
    | .ok head2 => (.ok (), ⟨head2 :: rest⟩)
    | .error e => (.error e, s)

/-- `ScopeMap::add_type`. -/
def ScopeMap.add_type (s : ScopeMap) (custom_type : TypeDec) :
    Except Error Unit × ScopeMap :=
  match s.scopes with
  | [] => (.error ⟨ErrKind.Context, "Adding new custom type to empty scopemap"⟩, s)
  | head :: rest =>
    match head.add_type custom_type with
    | .ok head2 => (.ok (), ⟨head2 :: rest⟩)
    | .error e => (.error e, s)

/-- Modelled from the spec: the execution context (src/context's main
module is absent from the sources): it owns the scope map, the error
accumulator, a debug flag and the current source path.  `Context::debug`
only writes to the log and is not modelled. -/
structure Context where
  scope_map : ScopeMap
  errors : List Error
  path : Option String
deriving DecidableEq, Repr

/-- Modelled from the spec: `Context::error` appends an error to the
context-owned accumulator. -/
def Context.error (ctx : Context) (e : Error) : Context :=
  { ctx with errors := ctx.errors ++ [e] }

/-- Modelled from the spec: `Context::get_type` resolves a `TypeId`
through the scope map by its identifier. -/
def Context.get_type (ctx : Context) (t : TypeId) : Option TypeDec :=
  ctx.scope_map.get_type t.id

/-- A child instruction in expression position (`Box<dyn Instruction>`):
its `execute` (through `execute_expression`) may mutate the context and
returns an optional instance, and `print` is its canonical rendering. -/
structure Expr where
  run : Context → Option ObjectInstance × Context
  printed : String

/-- A named field initializer of a type instantiation
(`VarAssign` as used by src/instruction/type_instantiation.rs:
`symbol()` is the field name and `value()` the initializer). -/
structure VarAssign where
  mut_flag : Bool
  symbol : String
  value : Expr

/-- A type instantiation node (src/instruction/type_instantiation.rs):
the instantiated type's name and the ordered field initializers. -/
structure TypeInstantiation where
  type_name : TypeId
  fields : List VarAssign

/-- `TypeInstantiation::check_primitive`: reject instantiation of a
primitive type. -/
def TypeInstantiation.check_primitive (ti : TypeInstantiation) : Except Error Unit :=
  match ti.type_name.is_primitive with
  | true => .error ⟨ErrKind.Interpreter,
      "cannot instantiate primitive type `" ++ ti.type_name.id ++ "`"⟩
  | false => .ok ()

/-- `TypeInstantiation::check_fields_count`: the number of supplied fields
must equal the number of declared fields. -/
def TypeInstantiation.check_fields_count (ti : TypeInstantiation) (type_dec : TypeDec) :
    Except Error Unit :=
  match ti.fields.length == type_dec.fields.length with
  | true => .ok ()
  | false => .error ⟨ErrKind.Interpreter,
      "Wrong number of arguments for type instantiation `" ++ ti.type_name.id ++
        "`: Expected " ++ toString type_dec.fields.length ++
        ", got " ++ toString ti.fields.length⟩

/-- `TypeInstantiation::get_declaration`: look the type up in the context;
when missing, append a "Cannot find type" error. -/
def TypeInstantiation.get_declaration (ti : TypeInstantiation) (ctx : Context) :
    Option TypeDec × Context :=
  match ctx.get_type ti.type_name with
  | some t => (some t, ctx)
  | none => (none,
      ctx.error ⟨ErrKind.Interpreter, "Cannot find type " ++ ti.type_name.id⟩)

/-- The field-evaluation loop of `TypeInstantiation::execute`: evaluate
each field initializer in order, accumulating the total size, the
concatenated data buffer and the ordered (name, size) pairs; abort with
`none` as soon as an initializer fails to produce an instance. -/
def instantiateFields : List VarAssign → Context → Nat → List Nat →
    List (String × Nat) → Option (Nat × List Nat × List (String × Nat)) × Context
  | [], ctx, size, data, fields => (some (size, data, fields), ctx)
  | named_arg :: rest, ctx, size, data, fields =>
    match named_arg.value.run ctx with
    | (none, ctx2) => (none, ctx2)
    | (some inst, ctx2) =>
      instantiateFields rest ctx2 (size + inst.size) (data ++ inst.data)
        (fields ++ [(named_arg.symbol, inst.size)])

/-- `TypeInstantiation::execute`: primitive check, then type lookup, then
arity check, then the field-evaluation loop, then instance construction. -/
def TypeInstantiation.execute (ti : TypeInstantiation) (ctx : Context) :
    Option ObjectInstance × Context :=
  match ti.check_primitive with
  | .error e => (none, ctx.error e)
  | .ok _ =>
    match ti.get_declaration ctx with
    | (none, ctx2) => (none, ctx2)
    | (some type_dec, ctx2) =>
      match ti.check_fields_count type_dec with
      | .error e => (none, ctx2.error e)
      | .ok _ =>
        match instantiateFields ti.fields ctx2 0 [] [] with
        | (none, ctx3) => (none, ctx3)
        | (some (size, data, fields), ctx3) =>
          (some (ObjectInstance.new (some type_dec) size data (some fields)), ctx3)

/-- Specification-side runner for the field initializers: the list of
instances they produce, with the context threaded left to right, or `none`
when one of them fails. -/
def runFields : List VarAssign → Context → Option (List ObjectInstance × Context)
  | [], ctx => some ([], ctx)
  | named_arg :: rest, ctx =>
    match named_arg.value.run ctx with
    | (none, _) => none
    | (some inst, ctx2) =>
      match runFields rest ctx2 with
      | none => none
      | some (insts, ctx3) => some (inst :: insts, ctx3)

/-- A field access node (src/instruction/field_access.rs): the accessed
instance expression and the field name. -/
structure FieldAccess where
  inst : Expr
  field_name : String

/-- `FieldAccess::print`. -/
def FieldAccess.printed (fa : FieldAccess) : String :=
  fa.inst.printed ++ "." ++ fa.field_name

/-- `FieldAccess::execute`: evaluate the receiver; when it produces no
instance, append the "is a statement" error; otherwise delegate to
`get_field`, appending its error on failure. -/
def FieldAccess.execute (fa : FieldAccess) (ctx : Context) :
    Option ObjectInstance × Context :=
  match fa.inst.run ctx with
  | (none, ctx2) => (none, ctx2.error ⟨ErrKind.Context,
      "instance `" ++ fa.inst.printed ++ "` is a statement and cannot be accessed"⟩)
  | (some calling_instance, ctx2) =>
    match calling_instance.get_field fa.field_name with
    | .ok field => (some field, ctx2)
    | .error e => (none, ctx2.error e)

/-- An error of the earlier interpreter layer (`JkError::new(kind, msg,
loc, printed)` as used by src/instruction/incl.rs and
src/instruction/return_instr.rs); the source location is not modelled. -/
structure JkError where
  kind : ErrKind
  msg : String
  printed : String
deriving DecidableEq, Repr

/-- Instruction kinds as used by the statement-propagating instructions
(src/instruction/incl.rs, src/instruction/function_call.rs). -/
inductive InstrKind where
  | Statement
  | Expression
deriving DecidableEq, Repr

/-- Modelled from the spec: the state of the interpreter relevant to the
include instruction (the context module is absent from the sources): the
current source file path.  `Interpreter::debug` only writes to the log and
is not modelled. -/
structure Interpreter where
  path : Option String
deriving DecidableEq, Repr

/-- An included instruction (`Box<dyn Instruction>` whose `execute`
returns `Result<InstrKind, JkError>` and may mutate the interpreter). -/
structure JkInstruction where
  run : Interpreter → Except JkError InstrKind × Interpreter
  printed : String

/-- `PathBuf::push`: join a base directory and a path with a separator;
an absolute path replaces the base, and pushing onto an empty base keeps
the path alone. -/
def pathPush (base p : String) : String :=
  if p.toList.head? = some '/' then p
  else if base = "" then p
  else if base.toList.getLast? = some '/' then base ++ p
  else base ++ "/" ++ p

/-- `Path::parent` as used on the including file: everything before the
last separator, or the empty path when there is none.  (The source
unwraps the parent; for the paths reaching it the parent exists.) -/
def parentPath (p : String) : String :=
  String.mk (((p.toList.reverse.dropWhile (fun c => c ≠ '/')).drop 1).reverse)

/-- The `{:?}` rendering of a `PathBuf` in the include error messages:
the path between double quotes.  (Escaping of special characters inside
the path is not modelled.) -/
def quoteDbg (p : String) : String := "\"" ++ p ++ "\""

/-- An include node (src/instruction/incl.rs): a path and an optional
alias. -/
structure Incl where
  path : String
  aliasName : Option String
deriving DecidableEq, Repr

/-- The conventional entry file appended when including a directory
(`DEFAULT_INCL`). -/
def DEFAULT_INCL : String := "/lib.jk"

/-- `Incl::print`: `incl path` with an optional ` as alias` suffix. -/
def Incl.printed (incl : Incl) : String :=
  let base := "incl " ++ incl.path
  match incl.aliasName with
  | some a => base ++ " as " ++ a
  | none => base

/-- `Incl::format_candidates`: push the include path onto the base, then
build the directory candidate by appending `/lib.jk` and the file
candidate by appending `.jk` (plain string concatenations in the
source). -/
def Incl.format_candidates (incl : Incl) (base : String) : String × String :=
  let fnt := pathPush base incl.path
  (fnt ++ DEFAULT_INCL, fnt ++ ".jk")

/-- `Incl::format_path`: exactly one of the two candidates must exist as
a file; both existing or neither existing is an error.  The file system
is abstracted by the predicate `is_file`. -/
def Incl.format_path (incl : Incl) (base : String) (is_file : String → Bool) :
    Except JkError String :=
  let cands := incl.format_candidates base
  let dir_candidate := cands.1
  let file_candidate := cands.2
  match is_file dir_candidate, is_file file_candidate with
  | true, true => .error ⟨ErrKind.Interpreter,
      "invalid include: " ++ quoteDbg dir_candidate ++ " and " ++
        quoteDbg file_candidate ++ " are both valid candidates", incl.printed⟩
  | false, false => .error ⟨ErrKind.Interpreter,
      "no candidate for include: " ++ quoteDbg dir_candidate ++ " and " ++
        quoteDbg file_candidate ++ " do not exist", incl.printed⟩
  | false, true => .ok file_candidate
  | true, false => .ok dir_candidate

/-- `Incl::inner_load` (= `load_relative` = `load`): resolve the path,
then read and parse the chosen file into a sequence of instructions.
Reading and parsing are abstracted by `parse_file`, which carries the
I/O or parse error when it fails. -/
def Incl.load (incl : Incl) (base : String) (is_file : String → Bool)
    (parse_file : String → Except JkError (List JkInstruction)) :
    Except JkError (String × List JkInstruction) :=
  match incl.format_path base is_file with
  | .error e => .error e
  | .ok formatted =>
    match parse_file formatted with
    | .error e => .error e
    | .ok instructions => .ok (formatted, instructions)

/-- The instruction loop of `Incl::execute`: execute each included
instruction in order, stopping at the first error (the source collects
the results into a `Result` and propagates with `?`). -/
def execAll : List JkInstruction → Interpreter → Except JkError Unit × Interpreter
  | [], i => (.ok (), i)
  | instr :: rest, i =>
    match instr.run i with
    | (.error e, i2) => (.error e, i2)
    | (.ok _, i2) => execAll rest i2

/-- `Incl::execute`: compute the base directory from the current path,
save the current path, load the included file, set the path to the chosen
file, execute the included instructions (propagating the first error with
`?`), and restore the saved path afterwards.  As in the source, the early
`?` return on a failing included instruction skips the restore. -/
def Incl.execute (incl : Incl) (is_file : String → Bool)
    (parse_file : String → Except JkError (List JkInstruction))
    (i : Interpreter) : Except JkError InstrKind × Interpreter :=
  let base := match i.path with
    | some p => parentPath p
    | none => ""
  let old_path := i.path
  match incl.load base is_file parse_file with
  | .error e => (.error e, i)
  | .ok (new_path, content) =>
    let i2 : Interpreter := { path := some new_path }
    match execAll content i2 with
    | (.error e, i3) => (.error e, i3)
    | (.ok _, i3) => (.ok InstrKind.Statement, { i3 with path := old_path })

/-- The outcome of running an instruction of the earlier interpreter
layer, with a case for a Rust panic (`unreachable!`). -/
inductive RustOutcome (α : Type) where
  | ok : α → RustOutcome α
  | err : JkError → RustOutcome α
  | panicked : String → RustOutcome α
deriving DecidableEq, Repr

/-- A literal argument of a function call
(src/instruction/function_call.rs stores `Constant` arguments); only its
rendering is relevant here. -/
structure Constant where
  printed : String
deriving DecidableEq, Repr

/-- A function call node (src/instruction/function_call.rs): the callee's
name and the literal arguments. -/
structure FunctionCall where
  fn_name : String
  args : List Constant
deriving DecidableEq, Repr

/-- `FunctionCall::execute` as it stands in the source: the body is
`unreachable!("Function calls are not implemented yet")`, so every
execution panics with that message and performs no other effect. -/
def FunctionCall.execute (_fc : FunctionCall) (i : Interpreter) :
    RustOutcome InstrKind × Interpreter :=
  (.panicked "Function calls are not implemented yet", i)

/-- `nom::character::is_digit(c as u8)` as used by `non_neg_num`
(src/parser/tokens.rs): the character is truncated to its low byte, and
the byte is tested for the ASCII digit range. -/
def isDigitByte (c : Char) : Bool :=
  let b := c.toNat % 256
  48 ≤ b && b ≤ 57

/-- A genuine ASCII decimal digit, as required by `str::parse` on the
matched slice. -/
def isAsciiDigitChar (c : Char) : Bool :=
  48 ≤ c.toNat && c.toNat ≤ 57

/-- Decimal value of a digit string. -/
def digitsToNat (cs : List Char) : Nat :=
  cs.foldl (fun acc c => acc * 10 + (c.toNat - 48)) 0

/-- The largest value of a 64-bit signed integer (`i64::MAX`). -/
def I64_MAX : Nat := 9223372036854775807

/-- `Token::non_neg_num`: `take_while1` over `is_digit(c as u8)`; fails
when no character matches, otherwise yields the remaining input and the
matched run. -/
def non_neg_num (input : List Char) : Option (List Char × List Char) :=
  let digits := input.takeWhile isDigitByte
  if digits.isEmpty then none
  else some (input.dropWhile isDigitByte, digits)

/-- `num.parse::<i64>()` on the matched run, which carries no sign:
succeeds exactly when the run is non-empty, consists of genuine ASCII
digits, and its value fits in an `i64`. -/
def parseI64 (num : List Char) : Option Int :=
  if !num.isEmpty && num.all isAsciiDigitChar && digitsToNat num ≤ I64_MAX then
    some (digitsToNat num : Int)
  else none

/-- `opt(char('-'))`: consume a single leading `-` when present; the
Boolean records whether the sign was there. -/
def optMinus (input : List Char) : List Char × Bool :=
  match input with
  | c :: rest => if c = '-' then (rest, true) else (input, false)
  | [] => (input, false)

/-- `Token::int_constant`: an optional leading `-`, then `non_neg_num`,
then `parse::<i64>`, negating the value when the sign was present. -/
def int_constant (input : List Char) : Option (List Char × Int) :=
  let sign := optMinus input
  match non_neg_num sign.1 with
  | none => none
  | some (input2, num) =>
    match parseI64 num with
    | none => none
    | some value => some (input2, if sign.2 then -value else value)

/-- `format!("{}.{}", whole, decimal).parse::<f64>()`: the whole part is
the decimal rendering of an `i64`, so the parse succeeds exactly when the
matched decimal run consists of genuine ASCII digits.  The resulting
value is modelled exactly (the rounding of the decimal value to the
nearest `f64` is not modelled); the value is kept as a
scaled integer, the pair `(num, pow)` denoting `num / 10 ^ pow`; a
negative whole part makes the fractional part subtract, since the
rendered string then starts with the sign. -/
def floatValue (whole : Int) (decimal : List Char) : Option (Int × Nat) :=
  if decimal.all isAsciiDigitChar then
    let d : Int := (digitsToNat decimal : Int)
    let k := decimal.length
    some (if whole < 0 then whole * (10 : Int) ^ k - d
          else whole * (10 : Int) ^ k + d, k)
  else none

/-- `char(c)`: recognize exactly the character `c` at the head of the
input and return the remainder. -/
def charTok (c : Char) (input : List Char) : Option (List Char) :=
  match input with
  | x :: rest => if x = c then some rest else none
  | [] => none

/-- `Token::float_constant`: an optional leading `-`, then
`int_constant` (which accepts a sign of its own), then `.`, then
`non_neg_num`, the whole rendered and reparsed as a float; the outer sign
negates the result. -/
def float_constant (input : List Char) : Option (List Char × (Int × Nat)) :=
  let sign := optMinus input
  match int_constant sign.1 with
  | none => none
  | some (input2, whole) =>
    match charTok '.' input2 with
    | none => none
    | some input3 =>
      match non_neg_num input3 with
      | none => none
      | some (input4, decimal) =>
        match floatValue whole decimal with
        | none => none
        | some value =>
          some (input4, if sign.2 then (-value.1, value.2) else value)

/-- A concrete record type with two int fields, used for evaluation. -/
def pointDec : TypeDec := ⟨"Point", [⟨"x", ⟨"int"⟩⟩, ⟨"y", ⟨"int"⟩⟩]⟩

/-- A concrete scope declaring only the type `Point`. -/
def scPoint : Scope := { vars := [], functions := [], types := [("Point", pointDec)] }

/-- A concrete context whose scope map holds one scope declaring `Point`. -/
def ctxPoint : Context := ⟨⟨[scPoint]⟩, [], none⟩

/-- A concrete 8-byte little-endian integer instance (for small values). -/
def intInst (n : Nat) : ObjectInstance := ⟨none, 8, [n, 0, 0, 0, 0, 0, 0, 0], none⟩

/-- An expression that produces a fixed instance and leaves the context
untouched. -/
def constExpr (i : ObjectInstance) : Expr := ⟨fun ctx => (some i, ctx), "c"⟩

/-- A concrete instantiation `Point { x = 15, y = 14 }`. -/
def tiPoint : TypeInstantiation :=
  ⟨⟨"Point"⟩, [⟨false, "x", constExpr (intInst 15)⟩, ⟨false, "y", constExpr (intInst 14)⟩]⟩

/-- An expression that produces no instance and prints as `void()`. -/
def voidRecv : Expr := ⟨fun ctx => (none, ctx), "void()"⟩

/-- A concrete scope binding only the variable `a`. -/
def scopeA : Scope := { vars := [("a", ⟨"a", false, none⟩)], functions := [], types := [] }

/-- A concrete included instruction whose execution fails. -/
def failInstr : JkInstruction := ⟨fun i => (.error ⟨ErrKind.Interpreter, "oops", ""⟩, i), "oops"⟩

/-- A concrete file system where only `dir/foo.jk` exists. -/
def fsFoo : String → Bool := fun s => s == "dir/foo.jk"

/-- A concrete loader that parses any file into the one failing
instruction. -/
def parseFoo : String → Except JkError (List JkInstruction) := fun _ => .ok [failInstr]

/-- C10: on a scope map with zero scopes, `add_variable`, `add_function`
and `add_type` insert nothing: each returns the corresponding `Context`
error ("Adding variable to empty scopemap", "Adding function to empty
scopemap", "Adding new custom type to empty scopemap") and leaves the
scope map empty, whereas `scope_exit` on the empty scope map is fatal
(modelled as `none`). -/
theorem add_to_empty_scopemap_errors (v : Var) (f : FunctionDec) (t : TypeDec) :
    ScopeMap.new.add_variable v =
      (.error ⟨ErrKind.Context, "Adding variable to empty scopemap"⟩, ScopeMap.new) ∧
    ScopeMap.new.add_function f =
      (.error ⟨ErrKind.Context, "Adding function to empty scopemap"⟩, ScopeMap.new) ∧
    ScopeMap.new.add_type t =
      (.error ⟨ErrKind.Context, "Adding new custom type to empty scopemap"⟩, ScopeMap.new) ∧
    ScopeMap.new.scope_exit = none :=
  ⟨rfl, rfl, rfl, rfl⟩

/-- C3: `FunctionCall::execute` as present in the source does none of the
claimed resolution, binding or block execution: for every call and every
interpreter state it panics with "Function calls are not implemented
yet" and has no other effect. -/
theorem functionCall_execute_panics (fc : FunctionCall) (i : Interpreter) :
    fc.execute i = (.panicked "Function calls are not implemented yet", i) :=
  rfl

/-- C7: evaluating the include of `dir/foo.jk` (whose single instruction
fails) from the source file `dir/main.jk` leaves the context's path set
to the included file instead of restoring `dir/main.jk`: the early error
return skips the restore. -/
theorem incl_path_not_restored_on_error :
    ((Incl.mk "foo" none).execute fsFoo parseFoo ⟨some "dir/main.jk"⟩).2.path =
      some "dir/foo.jk" ∧
    ((Incl.mk "foo" none).execute fsFoo parseFoo ⟨some "dir/main.jk"⟩).1 =
      .error ⟨ErrKind.Interpreter, "oops", ""⟩ ∧
    some "dir/foo.jk" ≠ (some "dir/main.jk" : Option String) :=
  ⟨rfl, rfl, by decide⟩

/-- C9 counterexample: with `a` already bound in the innermost scope, a
second `add_variable` of `a` yields the message "variable already
declared: a", not the claimed "already declared: a". -/
theorem add_variable_message_counterexample :
    ((ScopeMap.mk [scopeA]).add_variable ⟨"a", false, none⟩).1 =
      .error ⟨ErrKind.Context, "variable already declared: a"⟩ ∧
    ((ScopeMap.mk [scopeA]).add_variable ⟨"a", false, none⟩).1 ≠
      .error ⟨ErrKind.Context, "already declared: a"⟩ :=
  ⟨rfl, by decide⟩

/-- C9 (amended): when the name is already bound in the innermost scope,
the adders fail with a `Context` error whose message is the namespace
word followed by "already declared: NAME", and leave every scope
unchanged; when the innermost scope does not bind the name in that
namespace — in particular when only an outer scope binds it, or when
only another namespace binds it — the insertion into the innermost scope
succeeds. -/
theorem add_already_declared (head : Scope) (rest : List Scope)
    (v : Var) (f : FunctionDec) (t : TypeDec) :
    ((head.get_variable v.name).isSome = true →
      ScopeMap.add_variable ⟨head :: rest⟩ v =
        (.error ⟨ErrKind.Context, "variable already declared: " ++ v.name⟩,
          ⟨head :: rest⟩)) ∧
    ((head.get_variable v.name).isSome = false →
      ScopeMap.add_variable ⟨head :: rest⟩ v =
        (.ok (), ⟨{ head with vars := (v.name, v) :: head.vars } :: rest⟩)) ∧
    ((head.get_function f.name).isSome = true →
      ScopeMap.add_function ⟨head :: rest⟩ f =
        (.error ⟨ErrKind.Context, "function already declared: " ++ f.name⟩,
          ⟨head :: rest⟩)) ∧
    ((head.get_function f.name).isSome = false →
      ScopeMap.add_function ⟨head :: rest⟩ f =
        (.ok (), ⟨{ head with functions := (f.name, f) :: head.functions } :: rest⟩)) ∧
    ((head.get_type t.name).isSome = true →
      ScopeMap.add_type ⟨head :: rest⟩ t =
        (.error ⟨ErrKind.Context, "type already declared: " ++ t.name⟩,
          ⟨head :: rest⟩)) ∧
    ((head.get_type t.name).isSome = false →
      ScopeMap.add_type ⟨head :: rest⟩ t =
        (.ok (), ⟨{ head with types := (t.name, t) :: head.types } :: rest⟩)) := by
  refine ⟨?_, ?_, ?_, ?_, ?_, ?_⟩ <;> intro h
  · obtain ⟨w, hw⟩ := Option.isSome_iff_exists.mp h
    simp [ScopeMap.add_variable, Scope.add_variable, hw]
  · cases hw : head.get_variable v.name with
    | none => simp [ScopeMap.add_variable, Scope.add_variable, hw]
    | some w => rw [hw] at h; simp at h
  · obtain ⟨w, hw⟩ := Option.isSome_iff_exists.mp h
    simp [ScopeMap.add_function, Scope.add_function, hw]
  · cases hw : head.get_function f.name with
    | none => simp [ScopeMap.add_function, Scope.add_function, hw]
    | some w => rw [hw] at h; simp at h
  · obtain ⟨w, hw⟩ := Option.isSome_iff_exists.mp h
    simp [ScopeMap.add_type, Scope.add_type, hw]
  · cases hw : head.get_type t.name with
    | none => simp [ScopeMap.add_type, Scope.add_type, hw]
    | some w => rw [hw] at h; simp at h

theorem findSome?_cons_none2 {α β : Type} {f : α → Option β} {a : α} {l : List α}
    (h : f a = none) : (a :: l).findSome? f = l.findSome? f := by
  simp [List.findSome?, h]

theorem findSome?_cons_some2 {α β : Type} {f : α → Option β} {a : α} {l : List α}
    {b : β} (h : f a = some b) : (a :: l).findSome? f = some b := by
  simp [List.findSome?, h]

theorem findSome?_none_of_all {α β : Type} {f : α → Option β} {l : List α}
    (h : ∀ a ∈ l, f a = none) : l.findSome? f = none := by
  induction l with
  | nil => simp [List.findSome?]
  | cons a l ih =>
    rw [findSome?_cons_none2 (h a (by simp))]
    exact ih fun x hx => h x (by simp [hx])

theorem findSome?_first {α β : Type} {f : α → Option β} {pre post : List α}
    {sc : α} {b : β} (hpre : ∀ a ∈ pre, f a = none) (hsc : f sc = some b) :
    (pre ++ sc :: post).findSome? f = some b := by
  induction pre with
  | nil => simpa using findSome?_cons_some2 hsc
  | cons a l ih =>
    rw [List.cons_append, findSome?_cons_none2 (hpre a (by simp))]
    exact ih fun x hx => hpre x (by simp [hx])

/-- C2: shadowing and lookup order of the scope map.  For each of the
three namespaces: when `x` resolves to a first binding in `s` and a new
binding named `x` is added after `scope_enter`, the insertion succeeds,
lookup then returns the new binding, and after `scope_exit` the map is
the original one, where lookup returns the old binding again.  Lookups
return the binding of the innermost scope that binds `x` (any scopes
nearer the top that do not bind `x` are skipped), and `none` when no
scope binds `x`. -/
theorem scope_shadowing_and_lookup
    (s : ScopeMap) (x : String) (v1 v2 : Var) (f1 f2 : FunctionDec)
    (t1 t2 : TypeDec) (pre post : List Scope) (sc : Scope) :
    (v2.name = x → s.get_variable x = some v1 →
      ((s.scope_enter).add_variable v2).1 = .ok () ∧
      ((s.scope_enter).add_variable v2).2.get_variable x = some v2 ∧
      ∃ s0, ((s.scope_enter).add_variable v2).2.scope_exit = some s0 ∧
        s0.get_variable x = some v1) ∧
    (f2.name = x → s.get_function x = some f1 →
      ((s.scope_enter).add_function f2).1 = .ok () ∧
      ((s.scope_enter).add_function f2).2.get_function x = some f2 ∧
      ∃ s0, ((s.scope_enter).add_function f2).2.scope_exit = some s0 ∧
        s0.get_function x = some f1) ∧
    (t2.name = x → s.get_type x = some t1 →
      ((s.scope_enter).add_type t2).1 = .ok () ∧
      ((s.scope_enter).add_type t2).2.get_type x = some t2 ∧
      ∃ s0, ((s.scope_enter).add_type t2).2.scope_exit = some s0 ∧
        s0.get_type x = some t1) ∧
    (s.scopes = pre ++ sc :: post → (∀ sc2 ∈ pre, sc2.get_variable x = none) →
      sc.get_variable x = some v1 → s.get_variable x = some v1) ∧
    (s.scopes = pre ++ sc :: post → (∀ sc2 ∈ pre, sc2.get_function x = none) →
      sc.get_function x = some f1 → s.get_function x = some f1) ∧
    (s.scopes = pre ++ sc :: post → (∀ sc2 ∈ pre, sc2.get_type x = none) →
      sc.get_type x = some t1 → s.get_type x = some t1) ∧
    ((∀ sc2 ∈ s.scopes, sc2.get_variable x = none) → s.get_variable x = none) ∧
    ((∀ sc2 ∈ s.scopes, sc2.get_function x = none) → s.get_function x = none) ∧
    ((∀ sc2 ∈ s.scopes, sc2.get_type x = none) → s.get_type x = none) := by
  refine ⟨?_, ?_, ?_, ?_, ?_, ?_, ?_, ?_, ?_⟩
  · intro hname hv1
    subst hname
    refine ⟨rfl, ?_, s, rfl, hv1⟩
    show List.findSome? _ (_ :: s.scopes) = _
    exact findSome?_cons_some2 (by simp [Scope.get_variable, assocFind])
  · intro hname hf1
    subst hname
    refine ⟨rfl, ?_, s, rfl, hf1⟩
    show List.findSome? _ (_ :: s.scopes) = _
    exact findSome?_cons_some2 (by simp [Scope.get_function, assocFind])
  · intro hname ht1
    subst hname
    refine ⟨rfl, ?_, s, rfl, ht1⟩
    show List.findSome? _ (_ :: s.scopes) = _
    exact findSome?_cons_some2 (by simp [Scope.get_type, assocFind])
  · intro hs hpre hsc
    rw [ScopeMap.get_variable, hs]
    exact findSome?_first hpre hsc
  · intro hs hpre hsc
    rw [ScopeMap.get_function, hs]
    exact findSome?_first hpre hsc
  · intro hs hpre hsc
    rw [ScopeMap.get_type, hs]
    exact findSome?_first hpre hsc
  · exact fun h => findSome?_none_of_all h
  · exact fun h => findSome?_none_of_all h
  · exact fun h => findSome?_none_of_all h

/-- Witness for the shadowing/lookup theorem at a concrete scope map:
`a` bound in the outer scope is shadowed by a new `a` after a
`scope_enter`, reappears after `scope_exit`, and a name bound nowhere
yields `none`. -/
theorem scope_shadowing_and_lookup_witness :
    (ScopeMap.mk [scopeA]).get_variable "a" = some ⟨"a", false, none⟩ ∧
    (((ScopeMap.mk [scopeA]).scope_enter.add_variable ⟨"a", true, none⟩).1 = .ok () ∧
      ((ScopeMap.mk [scopeA]).scope_enter.add_variable ⟨"a", true, none⟩).2.get_variable "a" =
        some ⟨"a", true, none⟩ ∧
      ∃ s0, ((ScopeMap.mk [scopeA]).scope_enter.add_variable ⟨"a", true, none⟩).2.scope_exit =
          some s0 ∧ s0.get_variable "a" = some ⟨"a", false, none⟩) ∧
    (ScopeMap.mk [scopeA]).get_variable "b" = none :=
  ⟨by decide,
   (scope_shadowing_and_lookup ⟨[scopeA]⟩ "a" ⟨"a", false, none⟩ ⟨"a", true, none⟩
      ⟨"a", [], none⟩ ⟨"a", [], none⟩ ⟨"a", []⟩ ⟨"a", []⟩ [] [] Scope.new).1
      rfl (by decide),
   (scope_shadowing_and_lookup ⟨[scopeA]⟩ "b" ⟨"a", false, none⟩ ⟨"a", true, none⟩
      ⟨"a", [], none⟩ ⟨"a", [], none⟩ ⟨"a", []⟩ ⟨"a", []⟩ [] [] Scope.new).2.2.2.2.2.2.1
      (by decide)⟩

/-- Witness for the amended already-declared theorem: re-adding the
variable `a` fails with the full message and leaves the map unchanged,
while adding a function named `a` in the same scope succeeds because the
namespaces are independent. -/
theorem add_already_declared_witness :
    (scopeA.get_variable "a").isSome = true ∧
    ScopeMap.add_variable ⟨[scopeA]⟩ ⟨"a", false, none⟩ =
      (.error ⟨ErrKind.Context, "variable already declared: a"⟩, ⟨[scopeA]⟩) ∧
    (scopeA.get_function "a").isSome = false ∧
    ScopeMap.add_function ⟨[scopeA]⟩ ⟨"a", [], none⟩ =
      (.ok (), ⟨[{ scopeA with functions := [("a", ⟨"a", [], none⟩)] }]⟩) :=
  ⟨by decide,
   (add_already_declared scopeA [] ⟨"a", false, none⟩ ⟨"a", [], none⟩ ⟨"a", []⟩).1
     (by decide),
   by decide,
   (add_already_declared scopeA [] ⟨"a", false, none⟩ ⟨"a", [], none⟩ ⟨"a", []⟩).2.2.2.1
     (by decide)⟩

/-- C6: include resolution forms exactly the candidates
`join(base, path)/lib.jk` and `join(base, path).jk`; it succeeds exactly
when one of them exists as a file, choosing that one; both existing
yields the "invalid include" error listing both paths, neither existing
the "no candidate for include" error listing both paths. -/
theorem include_candidate_resolution (incl : Incl) (base : String)
    (is_file : String → Bool) (dirc filec : String)
    (hc : incl.format_candidates base = (dirc, filec)) :
    incl.format_candidates base =
      (pathPush base incl.path ++ "/lib.jk", pathPush base incl.path ++ ".jk") ∧
    (is_file dirc = true → is_file filec = false →
      incl.format_path base is_file = .ok dirc) ∧
    (is_file dirc = false → is_file filec = true →
      incl.format_path base is_file = .ok filec) ∧
    (is_file dirc = true → is_file filec = true →
      incl.format_path base is_file = .error ⟨ErrKind.Interpreter,
        "invalid include: " ++ quoteDbg dirc ++ " and " ++ quoteDbg filec ++
          " are both valid candidates", incl.printed⟩) ∧
    (is_file dirc = false → is_file filec = false →
      incl.format_path base is_file = .error ⟨ErrKind.Interpreter,
        "no candidate for include: " ++ quoteDbg dirc ++ " and " ++ quoteDbg filec ++
          " do not exist", incl.printed⟩) ∧
    ((∃ p, incl.format_path base is_file = .ok p) ↔ is_file dirc ≠ is_file filec) := by
  refine ⟨rfl, ?_, ?_, ?_, ?_, ?_⟩ <;>
    first
    | (intro hd hf
       simp [Incl.format_path, hc, hd, hf])
    | (constructor
       · rintro ⟨p, hp⟩
         cases hd : is_file dirc <;> cases hf : is_file filec <;>
           simp [Incl.format_path, hc, hd, hf] at hp ⊢
       · intro hne
         cases hd : is_file dirc <;> cases hf : is_file filec
         · rw [hd, hf] at hne; simp at hne
         · exact ⟨filec, by simp [Incl.format_path, hc, hd, hf]⟩
         · exact ⟨dirc, by simp [Incl.format_path, hc, hd, hf]⟩
         · rw [hd, hf] at hne; simp at hne)

/-- Witness for the include resolution theorem in a file system where
only `dir/foo.jk` exists: including `foo` from `dir` chooses the file
candidate. -/
theorem include_candidate_resolution_witness :
    (Incl.mk "foo" none).format_candidates "dir" = ("dir/foo/lib.jk", "dir/foo.jk") ∧
    fsFoo "dir/foo/lib.jk" = false ∧ fsFoo "dir/foo.jk" = true ∧
    (Incl.mk "foo" none).format_path "dir" fsFoo = .ok "dir/foo.jk" :=
  ⟨by decide, by decide, by decide,
   (include_candidate_resolution (Incl.mk "foo" none) "dir" fsFoo
      "dir/foo/lib.jk" "dir/foo.jk" (by decide)).2.2.1 (by decide) (by decide)⟩

theorem instantiateFields_isSome (fs : List VarAssign) (ctx : Context) (n : Nat)
    (d : List Nat) (acc : List (String × Nat)) :
    (instantiateFields fs ctx n d acc).1.isSome = (runFields fs ctx).isSome := by
  induction fs generalizing ctx n d acc with
  | nil => simp [instantiateFields, runFields]
  | cons a l ih =>
    simp only [instantiateFields, runFields]
    cases hr : a.value.run ctx with
    | mk oi ctxm =>
      cases oi with
      | none => simp
      | some inst =>
        simp only []
        rw [ih]
        cases h2 : runFields l ctxm with
        | none => simp
        | some p => simp

theorem runFields_length (fs : List VarAssign) (ctx ctx2 : Context)
    (insts : List ObjectInstance) (h : runFields fs ctx = some (insts, ctx2)) :
    insts.length = fs.length := by
  induction fs generalizing ctx insts with
  | nil =>
    simp [runFields] at h
    simp [h.1.symm]
  | cons a l ih =>
    simp only [runFields] at h
    cases hr : a.value.run ctx with
    | mk oi ctxm =>
      rw [hr] at h
      cases oi with
      | none => simp at h
      | some inst =>
        simp only [] at h
        cases h2 : runFields l ctxm with
        | none => rw [h2] at h; simp at h
        | some p =>
          obtain ⟨insts2, ctx3⟩ := p
          rw [h2] at h
          simp only [Option.some_inj] at h
          cases h
          simp [ih _ _ h2]

theorem instantiateFields_spec (fs : List VarAssign) (ctx ctx2 : Context)
    (insts : List ObjectInstance) (h : runFields fs ctx = some (insts, ctx2)) :
    ∀ (n : Nat) (d : List Nat) (acc : List (String × Nat)),
    instantiateFields fs ctx n d acc =
      (some (n + (insts.map ObjectInstance.size).sum,
        d ++ (insts.map ObjectInstance.data).flatten,
        acc ++ (fs.map VarAssign.symbol).zip (insts.map ObjectInstance.size)), ctx2) := by
  induction fs generalizing ctx insts with
  | nil =>
    intro n d acc
    simp only [runFields, Option.some_inj] at h
    cases h
    simp [instantiateFields]
  | cons a l ih =>
    intro n d acc
    simp only [runFields] at h
    cases hr : a.value.run ctx with
    | mk oi ctxm =>
      rw [hr] at h
      cases oi with
      | none => simp at h
      | some inst =>
        simp only [] at h
        cases h2 : runFields l ctxm with
        | none => rw [h2] at h; simp at h
        | some p =>
          obtain ⟨insts2, ctx3⟩ := p
          rw [h2] at h
          simp only [Option.some_inj] at h
          cases h
          simp only [instantiateFields, hr]
          rw [ih _ _ h2]
          simp [List.append_assoc, Nat.add_assoc]

/-- C4: `TypeInstantiation::execute` produces an instance exactly when
the type is not primitive, a declaration is found, the supplied field
count matches the declared one, and every field initializer produces an
instance; each failing guard appends exactly its error, with the
primitive check performed before the type lookup (the primitive error
fires whatever the scope holds). -/
theorem type_instantiation_errors (ti : TypeInstantiation) (ctx : Context)
    (dec : TypeDec) :
    (ti.type_name.is_primitive = true →
      ti.execute ctx = (none, ctx.error ⟨ErrKind.Interpreter,
        "cannot instantiate primitive type `" ++ ti.type_name.id ++ "`"⟩)) ∧
    (ti.type_name.is_primitive = false → ctx.get_type ti.type_name = none →
      ti.execute ctx = (none, ctx.error ⟨ErrKind.Interpreter,
        "Cannot find type " ++ ti.type_name.id⟩)) ∧
    (ti.type_name.is_primitive = false → ctx.get_type ti.type_name = some dec →
      ti.fields.length ≠ dec.fields.length →
      ti.execute ctx = (none, ctx.error ⟨ErrKind.Interpreter,
        "Wrong number of arguments for type instantiation `" ++ ti.type_name.id ++
          "`: Expected " ++ toString dec.fields.length ++ ", got " ++
          toString ti.fields.length⟩)) ∧
    ((ti.execute ctx).1.isSome = true ↔
      ti.type_name.is_primitive = false ∧
        ∃ d2, ctx.get_type ti.type_name = some d2 ∧
          ti.fields.length = d2.fields.length ∧
          (runFields ti.fields ctx).isSome = true) := by
  refine ⟨?_, ?_, ?_, ?_⟩
  · intro hp
    simp [TypeInstantiation.execute, TypeInstantiation.check_primitive, hp]
  · intro hp hn
    simp [TypeInstantiation.execute, TypeInstantiation.check_primitive,
      TypeInstantiation.get_declaration, hp, hn]
  · intro hp hs hne
    have hb : (ti.fields.length == dec.fields.length) = false := by
      simp [hne]
    simp [TypeInstantiation.execute, TypeInstantiation.check_primitive,
      TypeInstantiation.get_declaration, TypeInstantiation.check_fields_count,
      hp, hs, hb]
  · constructor
    · intro hsome
      cases hp : ti.type_name.is_primitive with
      | true =>
        rw [(by simp [TypeInstantiation.execute,
          TypeInstantiation.check_primitive, hp] :
            ti.execute ctx = (none, ctx.error ⟨ErrKind.Interpreter,
              "cannot instantiate primitive type `" ++ ti.type_name.id ++ "`"⟩))]
          at hsome
        simp at hsome
      | false =>
        refine ⟨rfl, ?_⟩
        cases hg : ctx.get_type ti.type_name with
        | none =>
          rw [(by simp [TypeInstantiation.execute, TypeInstantiation.check_primitive,
            TypeInstantiation.get_declaration, hp, hg] :
              ti.execute ctx = (none, ctx.error ⟨ErrKind.Interpreter,
                "Cannot find type " ++ ti.type_name.id⟩))] at hsome
          simp at hsome
        | some d2 =>
          refine ⟨d2, rfl, ?_⟩
          cases hb : ti.fields.length == d2.fields.length with
          | false =>
            have : ti.execute ctx =
                (none, (ctx.error ⟨ErrKind.Interpreter,
                  "Wrong number of arguments for type instantiation `" ++
                    ti.type_name.id ++ "`: Expected " ++
                    toString d2.fields.length ++ ", got " ++
                    toString ti.fields.length⟩)) := by
              simp [TypeInstantiation.execute, TypeInstantiation.check_primitive,
                TypeInstantiation.get_declaration,
                TypeInstantiation.check_fields_count, hp, hg, hb]
            rw [this] at hsome
            simp at hsome
          | true =>
            refine ⟨by simpa using hb, ?_⟩
            rw [← instantiateFields_isSome ti.fields ctx 0 [] []]
            cases hi : instantiateFields ti.fields ctx 0 [] [] with
            | mk oi ctx3 =>
              cases oi with
              | none =>
                have : ti.execute ctx = (none, ctx3) := by
                  simp [TypeInstantiation.execute, TypeInstantiation.check_primitive,
                    TypeInstantiation.get_declaration,
                    TypeInstantiation.check_fields_count, hp, hg, hb, hi]
                rw [this] at hsome
                simp at hsome
              | some r => simp [hi]
    · rintro ⟨hp, d2, hg, hl, hr⟩
      cases hrun : runFields ti.fields ctx with
      | none => rw [hrun] at hr; simp at hr
      | some p =>
        obtain ⟨insts, ctx3⟩ := p
        have hb : (ti.fields.length == d2.fields.length) = true := by simp [hl]
        have hspec := instantiateFields_spec ti.fields ctx ctx3 insts hrun 0 [] []
        simp [TypeInstantiation.execute, TypeInstantiation.check_primitive,
          TypeInstantiation.get_declaration, TypeInstantiation.check_fields_count,
          hp, hg, hb, hspec]

/-- Witness for the type-instantiation error theorem: a primitive
instantiation, a missing type, a wrong arity and a successful
`Point { x = 15, y = 14 }`, in a context declaring only `Point`. -/
theorem type_instantiation_errors_witness :
    (TypeInstantiation.mk ⟨"int"⟩ []).execute ctxPoint =
      (none, ctxPoint.error ⟨ErrKind.Interpreter,
        "cannot instantiate primitive type `int`"⟩) ∧
    (TypeInstantiation.mk ⟨"Nope"⟩ []).execute ctxPoint =
      (none, ctxPoint.error ⟨ErrKind.Interpreter, "Cannot find type Nope"⟩) ∧
    (TypeInstantiation.mk ⟨"Point"⟩ []).execute ctxPoint =
      (none, ctxPoint.error ⟨ErrKind.Interpreter,
        "Wrong number of arguments for type instantiation `Point`: Expected 2, got 0"⟩) ∧
    (tiPoint.execute ctxPoint).1.isSome = true :=
  ⟨(type_instantiation_errors (TypeInstantiation.mk ⟨"int"⟩ []) ctxPoint pointDec).1
     (by decide),
   (type_instantiation_errors (TypeInstantiation.mk ⟨"Nope"⟩ []) ctxPoint pointDec).2.1
     (by decide) (by decide),
   (type_instantiation_errors (TypeInstantiation.mk ⟨"Point"⟩ []) ctxPoint pointDec).2.2.1
     (by decide) (by decide) (by decide),
   (type_instantiation_errors tiPoint ctxPoint pointDec).2.2.2.mpr
     ⟨by decide, pointDec, by decide, by decide, by decide⟩⟩

theorem lookup_fieldsWithOffsets (names : List String) (sizes : List Nat)
    (k off : Nat) (nm : String) (sz : Nat) (hnd : names.Nodup)
    (hk1 : names[k]? = some nm) (hk2 : sizes[k]? = some sz) :
    lookupField (fieldsWithOffsets off (names.zip sizes)) nm =
      some (off + (sizes.take k).sum, sz) := by
  induction names generalizing sizes k off with
  | nil => simp at hk1
  | cons n rest ih =>
    cases sizes with
    | nil => simp at hk2
    | cons s srest =>
      cases k with
      | zero =>
        simp only [List.getElem?_cons_zero, Option.some_inj] at hk1 hk2
        subst hk1
        subst hk2
        simp [fieldsWithOffsets, lookupField]
      | succ k =>
        simp only [List.getElem?_cons_succ] at hk1 hk2
        have hmem : nm ∈ rest := List.getElem?_mem hk1
        have hne : n ≠ nm := by
          intro he
          exact (List.nodup_cons.mp hnd).1 (he ▸ hmem)
        simp only [List.zip_cons_cons, fieldsWithOffsets, lookupField, if_neg hne]
        rw [show List.zipWith Prod.mk rest srest = rest.zip srest from rfl,
          ih srest k (off + s) (List.nodup_cons.mp hnd).2 hk1 hk2]
        simp [Nat.add_assoc]

theorem flatten_drop_take (insts : List ObjectInstance) (k : Nat)
    (ek : ObjectInstance) (hk : insts[k]? = some ek)
    (hdl : ∀ i ∈ insts, i.data.length = i.size) :
    (((insts.map ObjectInstance.data).flatten).drop
        (((insts.take k).map ObjectInstance.size).sum)).take ek.size = ek.data := by
  induction insts generalizing k with
  | nil => simp at hk
  | cons a rest ih =>
    cases k with
    | zero =>
      simp only [List.getElem?_cons_zero, Option.some_inj] at hk
      subst hk
      have hl : a.data.length = a.size := hdl a (by simp)
      simp only [List.take_zero, List.map_nil, List.sum_nil, List.drop_zero,
        List.map_cons, List.flatten_cons, ← hl]
      exact List.take_left a.data _
    | succ k =>
      simp only [List.getElem?_cons_succ] at hk
      have hl : a.data.length = a.size := hdl a (by simp)
      simp only [List.take_succ_cons, List.map_cons, List.sum_cons,
        List.flatten_cons, ← hl]
      rw [List.drop_append]
      exact ih k hk fun i hi => hdl i (by simp [hi])

/-- C1: when a non-primitive declared type is instantiated with a
matching number of field initializers that all produce instances (with
the instance invariant `data.length = size`, and pairwise distinct field
names so that the field map is a map), the produced instance's size is
the sum of the field instances' sizes, its data is the concatenation of
their bytes in source order, its field map assigns the k-th field the
offset that is the sum of the sizes of the preceding fields together
with the k-th instance's size, and `get_field` on the k-th name returns
exactly the k-th instance's bytes. -/
theorem type_instantiation_layout (ti : TypeInstantiation) (ctx ctx2 : Context)
    (dec : TypeDec) (insts : List ObjectInstance)
    (hp : ti.type_name.is_primitive = false)
    (hg : ctx.get_type ti.type_name = some dec)
    (hl : ti.fields.length = dec.fields.length)
    (hrun : runFields ti.fields ctx = some (insts, ctx2))
    (hdl : ∀ i ∈ insts, i.data.length = i.size)
    (hnd : (ti.fields.map VarAssign.symbol).Nodup) :
    ∃ obj, ti.execute ctx = (some obj, ctx2) ∧
      obj.ty = some dec ∧
      obj.size = (insts.map ObjectInstance.size).sum ∧
      obj.data = (insts.map ObjectInstance.data).flatten ∧
      ∀ (k : Nat) (va : VarAssign) (ek : ObjectInstance),
        ti.fields[k]? = some va → insts[k]? = some ek →
        (∃ fs, obj.fields = some fs ∧
          lookupField fs va.symbol =
            some (((insts.take k).map ObjectInstance.size).sum, ek.size)) ∧
        obj.get_field va.symbol = .ok ⟨none, ek.size, ek.data, none⟩ := by
  have hb : (ti.fields.length == dec.fields.length) = true := by simp [hl]
  have hspec := instantiateFields_spec ti.fields ctx ctx2 insts hrun 0 [] []
  refine ⟨ObjectInstance.new (some dec) ((insts.map ObjectInstance.size).sum)
      ((insts.map ObjectInstance.data).flatten)
      (some ((ti.fields.map VarAssign.symbol).zip (insts.map ObjectInstance.size))),
    ?_, rfl, rfl, rfl, ?_⟩
  · simp [TypeInstantiation.execute, TypeInstantiation.check_primitive,
      TypeInstantiation.get_declaration, TypeInstantiation.check_fields_count,
      hp, hg, hb, hspec]
  · intro k va ek hk1 hk2
    have hnm : (ti.fields.map VarAssign.symbol)[k]? = some va.symbol := by
      simp [List.getElem?_map, hk1]
    have hsz : (insts.map ObjectInstance.size)[k]? = some ek.size := by
      simp [List.getElem?_map, hk2]
    have hlk := lookup_fieldsWithOffsets (ti.fields.map VarAssign.symbol)
      (insts.map ObjectInstance.size) k 0 va.symbol ek.size hnd hnm hsz
    have hsum : ((insts.map ObjectInstance.size).take k).sum =
        ((insts.take k).map ObjectInstance.size).sum := by
      rw [List.map_take]
    refine ⟨⟨fieldsWithOffsets 0
        ((ti.fields.map VarAssign.symbol).zip (insts.map ObjectInstance.size)),
      rfl, ?_⟩, ?_⟩
    · rw [hlk, Nat.zero_add, hsum]
    · show ObjectInstance.get_field _ va.symbol = _
      rw [ObjectInstance.get_field]
      simp only [ObjectInstance.new, Option.map]
      rw [hlk]
      simp only [Nat.zero_add, hsum]
      rw [flatten_drop_take insts k ek hk2 hdl]

/-- Witness for the layout theorem: `Point { x = 15, y = 14 }` in a
context declaring `Point`, with two 8-byte integer field instances. -/
theorem type_instantiation_layout_witness :
    ∃ obj, tiPoint.execute ctxPoint = (some obj, ctxPoint) ∧
      obj.ty = some pointDec ∧
      obj.size = ([intInst 15, intInst 14].map ObjectInstance.size).sum ∧
      obj.data = ([intInst 15, intInst 14].map ObjectInstance.data).flatten ∧
      ∀ (k : Nat) (va : VarAssign) (ek : ObjectInstance),
        tiPoint.fields[k]? = some va → [intInst 15, intInst 14][k]? = some ek →
        (∃ fs, obj.fields = some fs ∧
          lookupField fs va.symbol =
            some ((([intInst 15, intInst 14].take k).map ObjectInstance.size).sum,
              ek.size)) ∧
        obj.get_field va.symbol = .ok ⟨none, ek.size, ek.data, none⟩ :=
  type_instantiation_layout tiPoint ctxPoint ctxPoint pointDec
    [intInst 15, intInst 14] (by decide) (by decide) (by decide) (by decide)
    (by decide) (by decide)

/-- C5 counterexample: the receiver `void()` producing no instance makes
`FieldAccess::execute` append "instance `void()` is a statement and
cannot be accessed" — with backticks around the printed receiver — and
not the claimed "instance void() is a statement and cannot be
accessed". -/
theorem field_access_message_counterexample :
    ((FieldAccess.mk voidRecv "field").execute ⟨ScopeMap.new, [], none⟩).2.errors =
      [⟨ErrKind.Context, "instance `void()` is a statement and cannot be accessed"⟩] ∧
    ((FieldAccess.mk voidRecv "field").execute ⟨ScopeMap.new, [], none⟩).2.errors ≠
      [⟨ErrKind.Context, "instance void() is a statement and cannot be accessed"⟩] :=
  ⟨rfl, by decide⟩

/-- C5 (amended): a receiver producing no instance makes `execute`
return `none` and append a `Context` error with the message
"instance `X` is a statement and cannot be accessed" where X is the
receiver's printed form surrounded by backticks; when the receiver
yields an instance, a missing field or a field access on an instance
without a field map also returns `none` with an error appended. -/
theorem field_access_errors (fa : FieldAccess) (ctx ctx2 : Context) :
    (fa.inst.run ctx = (none, ctx2) →
      fa.execute ctx = (none, ctx2.error ⟨ErrKind.Context,
        "instance `" ++ fa.inst.printed ++ "` is a statement and cannot be accessed"⟩)) ∧
    (∀ inst : ObjectInstance, fa.inst.run ctx = (some inst, ctx2) →
      (inst.fields = none → ∃ e, fa.execute ctx = (none, ctx2.error e)) ∧
      (∀ fs, inst.fields = some fs → lookupField fs fa.field_name = none →
        ∃ e, fa.execute ctx = (none, ctx2.error e))) := by
  constructor
  · intro h
    simp [FieldAccess.execute, h]
  · intro inst h
    constructor
    · intro hf
      exact ⟨⟨ErrKind.Context,
          "field access on primitive instance without fields: " ++ fa.field_name⟩,
        by simp [FieldAccess.execute, h, ObjectInstance.get_field, hf]⟩
    · intro fs hf hlk
      exact ⟨⟨ErrKind.Context, "no field named " ++ fa.field_name⟩,
        by simp [FieldAccess.execute, h, ObjectInstance.get_field, hf, hlk]⟩

/-- Witness for the field-access error theorem: the `void()` receiver
produces the backticked statement error, and a field access on a
primitive integer instance errors as well. -/
theorem field_access_errors_witness :
    (FieldAccess.mk voidRecv "field").execute ⟨ScopeMap.new, [], none⟩ =
      (none, Context.error ⟨ScopeMap.new, [], none⟩ ⟨ErrKind.Context,
        "instance `void()` is a statement and cannot be accessed"⟩) ∧
    (∃ e, (FieldAccess.mk (constExpr (intInst 12)) "f").execute ⟨ScopeMap.new, [], none⟩ =
      (none, Context.error ⟨ScopeMap.new, [], none⟩ e)) :=
  ⟨(field_access_errors (FieldAccess.mk voidRecv "field") ⟨ScopeMap.new, [], none⟩
      ⟨ScopeMap.new, [], none⟩).1 rfl,
   ((field_access_errors (FieldAccess.mk (constExpr (intInst 12)) "f")
      ⟨ScopeMap.new, [], none⟩ ⟨ScopeMap.new, [], none⟩).2 (intInst 12) rfl).1 rfl⟩

theorem takeWhile_append_all (p : Char → Bool) (ds rest : List Char)
    (h2 : ∀ c ∈ ds, p c = true) (h3 : ∀ c, rest.head? = some c → p c = false) :
    (ds ++ rest).takeWhile p = ds ∧ (ds ++ rest).dropWhile p = rest := by
  induction ds with
  | nil =>
    cases rest with
    | nil => simp
    | cons c t => simp [List.takeWhile_cons, List.dropWhile_cons, h3 c rfl]
  | cons c t ih =>
    have hc : p c = true := h2 c (by simp)
    have iht := ih (fun x hx => h2 x (by simp [hx]))
    simp [List.takeWhile_cons, List.dropWhile_cons, hc, iht.1, iht.2]

theorem head_dropWhile_false (p : Char → Bool) (l : List Char) (c : Char)
    (h : (l.dropWhile p).head? = some c) : p c = false := by
  induction l with
  | nil => simp at h
  | cons a t ih =>
    cases hp : p a with
    | true =>
      rw [List.dropWhile_cons, if_pos (by simp [hp])] at h
      exact ih h
    | false =>
      rw [List.dropWhile_cons, if_neg (by simp [hp])] at h
      simp at h
      rw [← h]
      exact hp

theorem non_neg_num_app (ds rest : List Char) (h1 : ds ≠ [])
    (h2 : ∀ c ∈ ds, isDigitByte c = true)
    (h3 : ∀ c, rest.head? = some c → isDigitByte c = false) :
    non_neg_num (ds ++ rest) = some (rest, ds) := by
  obtain ⟨ht, hd⟩ := takeWhile_append_all isDigitByte ds rest h2 h3
  simp [non_neg_num, ht, hd, h1]

theorem non_neg_num_inv (input : List Char) (res : List Char × List Char)
    (h : non_neg_num input = some res) :
    input = res.2 ++ res.1 ∧ res.2 ≠ [] ∧
      (∀ c ∈ res.2, isDigitByte c = true) ∧
      (∀ c, res.1.head? = some c → isDigitByte c = false) := by
  rw [non_neg_num] at h
  split at h
  · exact absurd h (by simp)
  · next hne =>
    simp only [Option.some_inj] at h
    subst h
    refine ⟨(List.takeWhile_append_dropWhile _ _).symm, by simpa using hne,
      fun c hc => List.mem_takeWhile_imp hc, fun c hc => head_dropWhile_false _ _ _ hc⟩

theorem parseI64_some (ds : List Char) (h1 : ds ≠ [])
    (h2 : ds.all isAsciiDigitChar = true) (h3 : digitsToNat ds ≤ I64_MAX) :
    parseI64 ds = some (digitsToNat ds : Int) := by
  simp [parseI64, h1, h2, h3]

theorem parseI64_inv (ds : List Char) (v : Int) (h : parseI64 ds = some v) :
    ds ≠ [] ∧ ds.all isAsciiDigitChar = true ∧ digitsToNat ds ≤ I64_MAX ∧
      v = (digitsToNat ds : Int) := by
  rw [parseI64] at h
  split at h
  · next hc =>
    simp only [Option.some_inj] at h
    simp only [Bool.and_eq_true, decide_eq_true_eq] at hc
    refine ⟨?_, hc.1.2, hc.2, h.symm⟩
    intro he
    subst he
    simp at hc
  · exact absurd h (by simp)

theorem ascii_isDigitByte (c : Char) (h : isAsciiDigitChar c = true) :
    isDigitByte c = true := by
  simp only [isAsciiDigitChar, Bool.and_eq_true, decide_eq_true_eq] at h
  simp only [isDigitByte, Bool.and_eq_true, decide_eq_true_eq]
  omega

theorem ascii_digit_ne_dash (c : Char) (h : isAsciiDigitChar c = true) : c ≠ '-' := by
  intro he
  subst he
  exact absurd h (by decide)

theorem optMinus_eq_self (input : List Char) :
    input = (if (optMinus input).2 then ['-'] else []) ++ (optMinus input).1 := by
  cases input with
  | nil => rfl
  | cons c t =>
    by_cases hc : c = '-'
    · subst hc
      simp [optMinus]
    · simp [optMinus, hc]

theorem int_constant_app (ds rest : List Char) (h1 : ds ≠ [])
    (h2 : ds.all isAsciiDigitChar = true) (h3 : digitsToNat ds ≤ I64_MAX)
    (h4 : ∀ c, rest.head? = some c → isDigitByte c = false) :
    int_constant (ds ++ rest) = some (rest, (digitsToNat ds : Int)) ∧
    int_constant ('-' :: (ds ++ rest)) = some (rest, -(digitsToNat ds : Int)) := by
  have hall : ∀ c ∈ ds, isAsciiDigitChar c = true := fun c hc =>
    List.all_eq_true.mp h2 c hc
  have hdb : ∀ c ∈ ds, isDigitByte c = true := fun c hc =>
    ascii_isDigitByte c (hall c hc)
  have hnn : non_neg_num (ds ++ rest) = some (rest, ds) :=
    non_neg_num_app ds rest h1 hdb h4
  have hp : parseI64 ds = some (digitsToNat ds : Int) := parseI64_some ds h1 h2 h3
  constructor
  · obtain ⟨c, t, hds⟩ : ∃ c t, ds = c :: t := by
      cases ds with
      | nil => exact absurd rfl h1
      | cons c t => exact ⟨c, t, rfl⟩
    have hc : c ≠ '-' := ascii_digit_ne_dash c (hall c (by simp [hds]))
    have hopt : optMinus (ds ++ rest) = (ds ++ rest, false) := by
      rw [hds, List.cons_append, optMinus, if_neg hc, ← List.cons_append, ← hds]
    simp [int_constant, hopt, hnn, hp]
  · have hopt : optMinus ('-' :: (ds ++ rest)) = (ds ++ rest, true) := by
      rw [optMinus, if_pos rfl]
    simp [int_constant, hopt, hnn, hp]

theorem int_constant_inv (input rest : List Char) (v : Int)
    (h : int_constant input = some (rest, v)) :
    ∃ (neg : Bool) (ds : List Char),
      input = (if neg then ['-'] else []) ++ ds ++ rest ∧ ds ≠ [] ∧
      ds.all isAsciiDigitChar = true ∧ digitsToNat ds ≤ I64_MAX ∧
      (∀ c, rest.head? = some c → isDigitByte c = false) ∧
      v = (if neg then -(digitsToNat ds : Int) else (digitsToNat ds : Int)) := by
  rw [int_constant] at h
  cases hn : non_neg_num (optMinus input).1 with
  | none => rw [hn] at h; simp at h
  | some res =>
    obtain ⟨i2, num⟩ := res
    simp only [hn] at h
    cases hp : parseI64 num with
    | none => simp [hp] at h
    | some value =>
      simp only [hp, Option.some_inj, Prod.mk.injEq] at h
      obtain ⟨hrest, hv⟩ := h
      obtain ⟨hsplit, hne, hdb, hbound⟩ := non_neg_num_inv _ _ hn
      simp only at hsplit hne hdb hbound
      obtain ⟨hne2, hall, hmax, hval⟩ := parseI64_inv _ _ hp
      rw [hrest] at hbound
      refine ⟨(optMinus input).2, num, ?_, hne2, hall, hmax, hbound, ?_⟩
      · rw [List.append_assoc, ← hrest, ← hsplit]
        exact optMinus_eq_self input
      · rw [← hv, hval]

theorem floatValue_nonneg (whole : Int) (ds2 : List Char) (hw : 0 ≤ whole)
    (hall : ds2.all isAsciiDigitChar = true) :
    floatValue whole ds2 =
      some (whole * (10 : Int) ^ ds2.length + (digitsToNat ds2 : Int), ds2.length) := by
  simp [floatValue, hall, show ¬ whole < 0 by omega]

theorem floatValue_negative (whole : Int) (ds2 : List Char) (hw : whole < 0)
    (hall : ds2.all isAsciiDigitChar = true) :
    floatValue whole ds2 =
      some (whole * (10 : Int) ^ ds2.length - (digitsToNat ds2 : Int), ds2.length) := by
  simp [floatValue, hall, hw]

theorem floatValue_inv (whole : Int) (ds2 : List Char) (val : Int × Nat)
    (h : floatValue whole ds2 = some val) :
    ds2.all isAsciiDigitChar = true ∧
      val = (if whole < 0 then whole * (10 : Int) ^ ds2.length - (digitsToNat ds2 : Int)
             else whole * (10 : Int) ^ ds2.length + (digitsToNat ds2 : Int),
        ds2.length) := by
  simp only [floatValue] at h
  split at h
  · next hall =>
    simp only [Option.some_inj] at h
    exact ⟨hall, h.symm⟩
  · exact absurd h (by simp)

theorem charTok_inv (c : Char) (input i3 : List Char)
    (h : charTok c input = some i3) : input = c :: i3 := by
  cases input with
  | nil => simp [charTok] at h
  | cons x t =>
    rw [charTok] at h
    split at h
    · next hx =>
      simp only [Option.some_inj] at h
      rw [hx, h]
    · exact absurd h (by simp)

theorem optMinus_digits (ds rest2 : List Char) (h1 : ds ≠ [])
    (h2 : ds.all isAsciiDigitChar = true) :
    optMinus (ds ++ rest2) = (ds ++ rest2, false) := by
  obtain ⟨c, t, hds⟩ : ∃ c t, ds = c :: t := by
    cases ds with
    | nil => exact absurd rfl h1
    | cons c t => exact ⟨c, t, rfl⟩
  have hc : c ≠ '-' :=
    ascii_digit_ne_dash c (List.all_eq_true.mp h2 c (by simp [hds]))
  rw [hds, List.cons_append, optMinus, if_neg hc, ← List.cons_append, ← hds]

theorem float_constant_app (ds1 ds2 rest : List Char)
    (h11 : ds1 ≠ []) (h12 : ds1.all isAsciiDigitChar = true)
    (h13 : digitsToNat ds1 ≤ I64_MAX)
    (h21 : ds2 ≠ []) (h22 : ds2.all isAsciiDigitChar = true)
    (h4 : ∀ c, rest.head? = some c → isDigitByte c = false) :
    float_constant (ds1 ++ '.' :: (ds2 ++ rest)) =
      some (rest, ((digitsToNat ds1 : Int) * 10 ^ ds2.length +
        (digitsToNat ds2 : Int), ds2.length)) ∧
    float_constant ('-' :: (ds1 ++ '.' :: (ds2 ++ rest))) =
      some (rest, (-((digitsToNat ds1 : Int) * 10 ^ ds2.length +
        (digitsToNat ds2 : Int)), ds2.length)) ∧
    (0 < digitsToNat ds1 →
      float_constant ('-' :: '-' :: (ds1 ++ '.' :: (ds2 ++ rest))) =
        some (rest, ((digitsToNat ds1 : Int) * 10 ^ ds2.length +
          (digitsToNat ds2 : Int), ds2.length))) := by
  have hdot : ∀ c, ('.' :: (ds2 ++ rest)).head? = some c → isDigitByte c = false := by
    intro c hc
    simp only [List.head?_cons, Option.some_inj] at hc
    rw [← hc]
    decide
  have hint := int_constant_app ds1 ('.' :: (ds2 ++ rest)) h11 h12 h13 hdot
  have hdb2 : ∀ c ∈ ds2, isDigitByte c = true := fun c hc =>
    ascii_isDigitByte c (List.all_eq_true.mp h22 c hc)
  have hnn2 : non_neg_num (ds2 ++ rest) = some (rest, ds2) :=
    non_neg_num_app ds2 rest h21 hdb2 h4
  have hfvp := floatValue_nonneg (digitsToNat ds1 : Int) ds2 (by positivity) h22
  refine ⟨?_, ?_, ?_⟩
  · simp only [float_constant, optMinus_digits ds1 _ h11 h12, hint.1]
    simp [charTok, hnn2, hfvp]
  · have hopt : optMinus ('-' :: (ds1 ++ '.' :: (ds2 ++ rest))) =
        (ds1 ++ '.' :: (ds2 ++ rest), true) := by
      rw [optMinus, if_pos rfl]
    simp only [float_constant, hopt, hint.1]
    simp [charTok, hnn2, hfvp]
  · intro hpos
    have hopt : optMinus ('-' :: '-' :: (ds1 ++ '.' :: (ds2 ++ rest))) =
        ('-' :: (ds1 ++ '.' :: (ds2 ++ rest)), true) := by
      rw [optMinus, if_pos rfl]
    have hfvn := floatValue_negative (-(digitsToNat ds1 : Int)) ds2 (by omega) h22
    simp only [float_constant, hopt, hint.2]
    have harith : -(-(digitsToNat ds1 : Int) * 10 ^ ds2.length -
        (digitsToNat ds2 : Int)) =
        (digitsToNat ds1 : Int) * 10 ^ ds2.length + (digitsToNat ds2 : Int) := by
      ring
    simp [charTok, hnn2, hfvn, harith]
    ring

theorem float_constant_inv (input rest : List Char) (v : Int × Nat)
    (h : float_constant input = some (rest, v)) :
    ∃ (neg dsign : Bool) (ds1 ds2 : List Char),
      input = (if neg then ['-'] else []) ++ (if dsign then ['-'] else []) ++
        (ds1 ++ '.' :: (ds2 ++ rest)) ∧
      ds1 ≠ [] ∧ ds1.all isAsciiDigitChar = true ∧ digitsToNat ds1 ≤ I64_MAX ∧
      ds2 ≠ [] ∧ ds2.all isAsciiDigitChar = true ∧
      (∀ c, rest.head? = some c → isDigitByte c = false) ∧
      ∃ w u : Int,
        w = (if dsign then -(digitsToNat ds1 : Int) else (digitsToNat ds1 : Int)) ∧
        u = (if w < 0 then w * 10 ^ ds2.length - (digitsToNat ds2 : Int)
             else w * 10 ^ ds2.length + (digitsToNat ds2 : Int)) ∧
        v = ((if neg then -u else u), ds2.length) := by
  simp only [float_constant] at h
  cases hi : int_constant (optMinus input).1 with
  | none => simp [hi] at h
  | some r1 =>
    obtain ⟨input2, whole⟩ := r1
    simp only [hi] at h
    cases hct : charTok '.' input2 with
    | none => simp [hct] at h
    | some input3 =>
      simp only [hct] at h
      cases hn2 : non_neg_num input3 with
      | none => simp [hn2] at h
      | some r2 =>
        obtain ⟨input4, ds2⟩ := r2
        simp only [hn2] at h
        cases hfv : floatValue whole ds2 with
        | none => simp [hfv] at h
        | some value =>
          obtain ⟨v1, v2⟩ := value
          simp only [hfv, Option.some_inj, Prod.mk.injEq] at h
          obtain ⟨hi4, hv⟩ := h
          obtain ⟨dsign, ds1, hsp1, hne1, hall1, hmax1, _, hwhole⟩ :=
            int_constant_inv _ _ _ hi
          obtain ⟨hsp2, hne2, hdb2, hbound2⟩ := non_neg_num_inv _ _ hn2
          simp only at hsp2 hne2 hdb2 hbound2
          obtain ⟨hall2, hval⟩ := floatValue_inv _ _ _ hfv
          simp only [Prod.mk.injEq] at hval
          have hinput2 : input2 = '.' :: input3 := charTok_inv _ _ _ hct
          refine ⟨(optMinus input).2, dsign, ds1, ds2, ?_, hne1, hall1, hmax1,
            hne2, hall2, ?_, whole, v1, hwhole, ?_, ?_⟩
          · have hs := optMinus_eq_self input
            rw [hsp1, hinput2, hsp2, hi4] at hs
            simpa [List.append_assoc] using hs
          · rw [hi4] at hbound2
            exact hbound2
          · exact hval.1
          · rw [← hv, ← hval.2]
            cases hsgn : (optMinus input).2 <;> simp

/-- C8 counterexample: `--2.5`, which carries a doubled sign, is accepted
by `float_constant` (and yields the positive value 25/10), and the
all-digit literal `9223372036854775808` is rejected by `int_constant`
because its value does not fit in an `i64`; both contradict the claimed
acceptance condition. -/
theorem numeric_literal_counterexample :
    float_constant ("--2.5".toList) = some ([], (25, 1)) ∧
    int_constant ("9223372036854775808".toList) = none := by
  decide

/-- C8 (amended): `int_constant` accepts an optional single `-` followed
by the maximal run of characters whose low byte is an ASCII digit code,
provided that run is non-empty, consists of genuine ASCII digits, and
its decimal value is at most 2^63 - 1; it yields that value, negated
under the sign, and accepts nothing else.  `float_constant` accepts an
optional leading `-` followed by an `int_constant` form (so possibly a
second sign), then `.`, then such a digit run; the two negations
compose, so a doubled sign is accepted and yields the positive value
when the whole part is non-zero.  Values are exact scaled decimals
`(num, pow)` denoting num / 10 ^ pow. -/
theorem numeric_literal_forms :
    (∀ ds rest : List Char, ds ≠ [] → ds.all isAsciiDigitChar = true →
      digitsToNat ds ≤ I64_MAX →
      (∀ c, rest.head? = some c → isDigitByte c = false) →
      int_constant (ds ++ rest) = some (rest, (digitsToNat ds : Int)) ∧
      int_constant ('-' :: (ds ++ rest)) = some (rest, -(digitsToNat ds : Int))) ∧
    (∀ (input rest : List Char) (v : Int), int_constant input = some (rest, v) →
      ∃ (neg : Bool) (ds : List Char),
        input = (if neg then ['-'] else []) ++ ds ++ rest ∧ ds ≠ [] ∧
        ds.all isAsciiDigitChar = true ∧ digitsToNat ds ≤ I64_MAX ∧
        (∀ c, rest.head? = some c → isDigitByte c = false) ∧
        v = (if neg then -(digitsToNat ds : Int) else (digitsToNat ds : Int))) ∧
    (∀ ds1 ds2 rest : List Char, ds1 ≠ [] → ds1.all isAsciiDigitChar = true →
      digitsToNat ds1 ≤ I64_MAX → ds2 ≠ [] → ds2.all isAsciiDigitChar = true →
      (∀ c, rest.head? = some c → isDigitByte c = false) →
      float_constant (ds1 ++ '.' :: (ds2 ++ rest)) =
        some (rest, ((digitsToNat ds1 : Int) * 10 ^ ds2.length +
          (digitsToNat ds2 : Int), ds2.length)) ∧
      float_constant ('-' :: (ds1 ++ '.' :: (ds2 ++ rest))) =
        some (rest, (-((digitsToNat ds1 : Int) * 10 ^ ds2.length +
          (digitsToNat ds2 : Int)), ds2.length)) ∧
      (0 < digitsToNat ds1 →
        float_constant ('-' :: '-' :: (ds1 ++ '.' :: (ds2 ++ rest))) =
          some (rest, ((digitsToNat ds1 : Int) * 10 ^ ds2.length +
            (digitsToNat ds2 : Int), ds2.length)))) ∧
    (∀ (input rest : List Char) (v : Int × Nat),
      float_constant input = some (rest, v) →
      ∃ (neg dsign : Bool) (ds1 ds2 : List Char),
        input = (if neg then ['-'] else []) ++ (if dsign then ['-'] else []) ++
          (ds1 ++ '.' :: (ds2 ++ rest)) ∧
        ds1 ≠ [] ∧ ds1.all isAsciiDigitChar = true ∧ digitsToNat ds1 ≤ I64_MAX ∧
        ds2 ≠ [] ∧ ds2.all isAsciiDigitChar = true ∧
        (∀ c, rest.head? = some c → isDigitByte c = false) ∧
        ∃ w u : Int,
          w = (if dsign then -(digitsToNat ds1 : Int) else (digitsToNat ds1 : Int)) ∧
          u = (if w < 0 then w * 10 ^ ds2.length - (digitsToNat ds2 : Int)
               else w * 10 ^ ds2.length + (digitsToNat ds2 : Int)) ∧
          v = ((if neg then -u else u), ds2.length)) :=
  ⟨fun ds rest h1 h2 h3 h4 => int_constant_app ds rest h1 h2 h3 h4,
   fun input rest v h => int_constant_inv input rest v h,
   fun ds1 ds2 rest h11 h12 h13 h21 h22 h4 =>
     float_constant_app ds1 ds2 rest h11 h12 h13 h21 h22 h4,
   fun input rest v h => float_constant_inv input rest v h⟩

/-- Witness for the literal-form theorem: `42` and `-42` parse as
integers, and the doubled-sign `--2.5` parses as the positive 25/10. -/
theorem numeric_literal_forms_witness :
    int_constant ("42".toList) = some ([], (42 : Int)) ∧
    int_constant ("-42".toList) = some ([], (-42 : Int)) ∧
    float_constant ("--2.5".toList) = some ([], ((25 : Int), 1)) :=
  ⟨(numeric_literal_forms.1 ['4', '2'] [] (by decide) (by decide) (by decide)
      (by decide)).1,
   (numeric_literal_forms.1 ['4', '2'] [] (by decide) (by decide) (by decide)
      (by decide)).2,
   (numeric_literal_forms.2.2.1 ['2'] ['5'] [] (by decide) (by decide) (by decide)
      (by decide) (by decide) (by decide)).2.2 (by decide)⟩
